import Mathlib

/-!
Verification development for the managed network scanner (n3t-R4ng3r.py).

The Python program is shallowly embedded: the external nmap tool is
abstracted as an environment providing a sweep outcome and one probe
outcome per host; every pure computation of the program (output parsing,
result bookkeeping, file-content construction, exit-code logic) is
translated directly from the source into executable Lean definitions.
-/

namespace NScan

/-- Membership of `needle` as a prefix of `hay` on character lists;
models the start of Python substring search. -/
def hasPrefixL : List Char → List Char → Bool
  | [], _ => true
  | _ :: _, [] => false
  | a :: as, b :: bs => a == b && hasPrefixL as bs

/-- `needle` occurs as a contiguous substring of the character list;
models Python's `needle in hay` on strings. -/
def hasInfixL (needle : List Char) : List Char → Bool
  | [] => hasPrefixL needle []
  | b :: rest => hasPrefixL needle (b :: rest) || hasInfixL needle rest

/-- Python's substring test `needle in hay`. -/
def containsSubstr (hay needle : String) : Bool :=
  hasInfixL needle.data hay.data

/-- Python's `str.lower()` (ASCII range, which is all the program feeds it). -/
def str_lower (s : String) : String :=
  String.mk (s.data.map Char.toLower)

/-- Maximal leading digit run, as regex `\d+` matches greedily. -/
def take_digits (cs : List Char) : List Char :=
  cs.takeWhile (fun c => c.isDigit)

/-- One `\d+\.` component of the sweep-line address pattern: a nonempty
digit run followed by a literal dot; returns (digits, rest). -/
def digits_then_dot (cs : List Char) : Option (List Char × List Char) :=
  let d := take_digits cs
  if d.isEmpty then none
  else
    match cs.drop d.length with
    | '.' :: rest => some (d, rest)
    | _ => none

/-- Match of `re.search`'s pattern `(\d+\.\d+\.\d+\.\d+)` anchored at the
start of the list; returns the matched text.  For this pattern greedy
matching never backtracks (a digit is never a dot), so the maximal digit
runs are exact. -/
def match_ip_at (cs : List Char) : Option (List Char) := do
  let (d1, r1) ← digits_then_dot cs
  let (d2, r2) ← digits_then_dot r1
  let (d3, r3) ← digits_then_dot r2
  let d4 := take_digits r3
  if d4.isEmpty then none
  else pure (d1 ++ '.' :: (d2 ++ '.' :: (d3 ++ '.' :: d4)))

/-- `re.search(r'(\d+\.\d+\.\d+\.\d+)', line)`: leftmost match. -/
def search_ip : List Char → Option (List Char)
  | [] => none
  | c :: rest =>
    match match_ip_at (c :: rest) with
    | some m => some m
    | none => search_ip rest

/-- Splitting a character list at every occurrence of `sep`, keeping
empty pieces, as Python's `str.split` with an explicit separator does. -/
def split_chars (sep : Char) : List Char → List (List Char)
  | [] => [[]]
  | c :: rest =>
    match split_chars sep rest with
    | [] => [[c]]
    | g :: gs => if c == sep then [] :: g :: gs else (c :: g) :: gs

/-- Python's `s.split('\n')`. -/
def split_lines (s : String) : List String :=
  (split_chars '\n' s.data).map String.mk

/-- One iteration of the `ping_sweep` parsing loop (lines 77-81 of the
source): if the line mentions a scan report, append the first address
token when one is found. -/
def sweep_step (acc : List String) (line : String) : List String :=
  if containsSubstr line "Nmap scan report for" then
    match search_ip line.data with
    | some cs => acc ++ [String.mk cs]
    | none => acc
  else acc

/-- The parsing of `result.stdout` in `ping_sweep`: split on newlines and
run the appending loop. -/
def parse_live_hosts (stdout : String) : List String :=
  (split_lines stdout).foldl sweep_step []

/-- What one line contributes to the live-host list, as a single
pattern-match; used to state that the loop keeps one entry per matching
line in order. -/
def line_ip (line : String) : Option String :=
  if containsSubstr line "Nmap scan report for" then
    (search_ip line.data).map String.mk
  else none

/-- Outcome of one `subprocess.run` invocation of the detailed probe:
the call returned (with an exit code and captured stdout), raised
`TimeoutExpired`, or raised some other exception. -/
inductive ProbeOutcome where
  | success (code : Int) (stdout : String)
  | timeout
  | error (msg : String)
deriving DecidableEq

/-- Outcome of the sweep-mode `subprocess.run` call inside `ping_sweep`:
returned with captured stdout, raised `TimeoutExpired`, or raised some
other exception. -/
inductive SweepOutcome where
  | ok (stdout : String)
  | timedOut
  | failed (msg : String)
deriving DecidableEq

/-- The scanner's shared mutable state: the two counters guarded by
`self.lock` and the FIFO `results_queue`. -/
structure ScanState where
  active : Int
  completed : Nat
  results_queue : List (String × String)
deriving DecidableEq

/-- `process_scan_result` (lines 125-153): prints the parsed port table
and appends `(host_ip, nmap_output)` to the results queue. -/
def process_scan_result (st : ScanState) (host output : String) : ScanState :=
  { st with results_queue := st.results_queue ++ [(host, output)] }

/-- `scan_host` (lines 93-123): increment the active counter, run the
probe, forward the output when the exit code is 0 and the lowercased
stdout contains "open", and in a `finally` step decrement the active
counter and increment the completed counter.  The returned Bool records
whether `time.sleep(self.delay)` executed: the sleep sits inside the
`try` block after the probe call, so it is skipped when the probe raised. -/
def scan_host (st : ScanState) (host : String) (o : ProbeOutcome) :
    ScanState × Bool :=
  let st1 : ScanState := { st with active := st.active + 1 }
  let step : ScanState × Bool :=
    match o with
    | ProbeOutcome.success code out =>
      if code == 0 && containsSubstr (str_lower out) "open" then
        (process_scan_result st1 host out, true)
      else (st1, true)
    | ProbeOutcome.timeout => (st1, false)
    | ProbeOutcome.error _ => (st1, false)
  ({ step.1 with active := step.1.active - 1, completed := step.1.completed + 1 },
   step.2)

/-- The aggregate effect of dispatching one task per host and joining on
all of them (`run_scan` lines 228-236).  The counter and queue updates of
`scan_host` commute across threads (all mutations happen under one lock),
so the final state is the fold of the per-task effects. -/
def run_tasks (st : ScanState) (tasks : List (String × ProbeOutcome)) : ScanState :=
  tasks.foldl (fun s t => (scan_host s t.1 t.2).1) st

/-- The broadcast address of the network: last address of the range. -/
def broadcast (net p : Nat) : Nat :=
  net + 2 ^ (32 - p) - 1

/-- Python's `ipaddress.IPv4Network.hosts()` on a network with (aligned)
network address `net` and prefix length `p`: the usable hosts, i.e. all
addresses except the network and broadcast addresses, except that for
prefix lengths 31 and 32 every address of the range is returned. -/
def hosts_range (net p : Nat) : List Nat :=
  if 31 ≤ p then (List.range (2 ^ (32 - p))).map (fun i => net + i)
  else (List.range (2 ^ (32 - p) - 2)).map (fun i => net + 1 + i)

/-- Follows the spec's words in §4.2 for comparison with the code: every
individual address in the range, excluding the network and broadcast
addresses. -/
def spec_excluded_hosts (net p : Nat) : List Nat :=
  ((List.range (2 ^ (32 - p))).map (fun i => net + i)).filter
    (fun a => a != net && a != broadcast net p)

/-- Python's `str(ip)` for an IPv4 address held as a number. -/
def ip_to_string (n : Nat) : String :=
  toString (n / 16777216 % 256) ++ "." ++ toString (n / 65536 % 256) ++ "."
    ++ toString (n / 256 % 256) ++ "." ++ toString (n % 256)

/-- The external collaborators of one run: whether nmap is invocable,
what the sweep invocation does, and what the detailed probe of each host
does. -/
structure Env where
  nmap_installed : Bool
  sweep : SweepOutcome
  probe : String → ProbeOutcome

/-- `ping_sweep` (lines 63-91): parse the sweep stdout on success; on
`TimeoutExpired` or any other exception fall back to
`[str(ip) for ip in self.network.hosts()]`. -/
def ping_sweep (env : Env) (net p : Nat) : List String :=
  match env.sweep with
  | SweepOutcome.ok stdout => parse_live_hosts stdout
  | SweepOutcome.timedOut => (hosts_range net p).map ip_to_string
  | SweepOutcome.failed _ => (hosts_range net p).map ip_to_string

/-- The two header chunks written to the xml file (lines 170-171). -/
def xml_header : List String :=
  ["<?xml version=\"1.0\" encoding=\"UTF-8\"?>\n", "<nmaprun>\n"]

/-- The chunks written to the xml file for one result (lines 173-175). -/
def xml_host_block (r : String × String) : List String :=
  ["  <host ip=\"" ++ r.1 ++ "\">\n",
   "    <output><![CDATA[" ++ r.2 ++ "]]></output>\n",
   "  </host>\n"]

/-- The xml output file as the ordered list of chunks passed to
`f.write` (lines 169-176). -/
def xml_file (rs : List (String × String)) : List String :=
  xml_header ++ rs.flatMap xml_host_block ++ ["</nmaprun>\n"]

/-- The 60-character separator line `'='*60`. -/
def eq_line : String :=
  String.mk (List.replicate 60 '=')

/-- The chunks written to the .nmap log file for one result
(lines 182-187). -/
def nmap_host_block (r : String × String) : List String :=
  [eq_line ++ "\n", "Host: " ++ r.1 ++ "\n", eq_line ++ "\n", r.2, "\n\n"]

/-- The .nmap log file as the ordered list of chunks passed to `f.write`
(lines 179-187); `ts` stands for the `time.strftime` timestamp. -/
def nmap_file (range ts : String) (rs : List (String × String)) : List String :=
  ["# Network scan results for " ++ range ++ "\n",
   "# Generated: " ++ ts ++ "\n\n"] ++ rs.flatMap nmap_host_block

/-- `re.match(r'(\d+/tcp)', line)`: a nonempty digit run at the start of
the line followed by the literal "/tcp"; group(1) is returned. -/
def match_port_tcp (cs : List Char) : Option String :=
  let ds := take_digits cs
  if ds.isEmpty then none
  else if ['/', 't', 'c', 'p'].isPrefixOf (cs.drop ds.length) then
    some (String.mk (ds ++ ['/', 't', 'c', 'p']))
  else none

/-- The port extraction loop of the .gnmap writer (lines 191-196): keep
the leading port token of every line containing both "/tcp" and the
lowercase substring "open". -/
def gnmap_ports (output : String) : List String :=
  (split_lines output).foldl
    (fun acc line =>
      if containsSubstr line "/tcp" && containsSubstr line "open" then
        match match_port_tcp line.data with
        | some pt => acc ++ [pt]
        | none => acc
      else acc) []

/-- The chunks written to the .gnmap file for one result
(lines 198-200): nothing when no port token was extracted. -/
def gnmap_host_block (r : String × String) : List String :=
  let ports := gnmap_ports r.2
  if ports.isEmpty then []
  else
    ["Host: " ++ r.1 ++ " () Status: Up\n",
     "Host: " ++ r.1 ++ " () Ports: " ++ String.intercalate "/" ports ++ "\n"]

/-- The .gnmap file as the ordered list of chunks passed to `f.write`
(lines 189-200). -/
def gnmap_file (rs : List (String × String)) : List String :=
  rs.flatMap gnmap_host_block

/-- The three files written by `save_results`. -/
structure SaveFiles where
  xml : List String
  nmap : List String
  gnmap : List String
deriving DecidableEq

/-- The draining loop of `save_results` (lines 160-162):
`while not self.results_queue.empty(): all_results.append(get())` takes
everything out of the FIFO queue in insertion order and leaves it empty. -/
def drain_queue (q : List (String × String)) :
    List (String × String) × List (String × String) :=
  (q, [])

/-- `save_results` (lines 156-205): drain the queue; if nothing was
drained print "No results to save" and return without touching the
filesystem (modelled as `none`); otherwise write the three files.
Returns the queue left behind and the optional files. -/
def save_results (range ts : String) (q : List (String × String)) :
    List (String × String) × Option SaveFiles :=
  let drained := (drain_queue q).1
  if drained.isEmpty then ((drain_queue q).2, none)
  else
    ((drain_queue q).2,
     some ⟨xml_file drained, nmap_file range ts drained, gnmap_file drained⟩)

/-- The observable outcome of `run_scan`: its return value, the final
counter/queue state, and `none` when `save_results` was never reached
(so no file was touched). -/
structure RunOutcome where
  success : Bool
  final : ScanState
  saved : Option (Option SaveFiles)
deriving DecidableEq

/-- `run_scan` (lines 207-245): abort returning False when nmap is not
invocable; run the sweep; abort returning False when no live host was
found; otherwise dispatch one task per live host, join, save, and return
True — whether or not any result was collected. -/
def run_scan (env : Env) (net p : Nat) (range ts : String) : RunOutcome :=
  if !env.nmap_installed then ⟨false, ⟨0, 0, []⟩, none⟩
  else
    let live := ping_sweep env net p
    if live.isEmpty then ⟨false, ⟨0, 0, []⟩, none⟩
    else
      let final := run_tasks ⟨0, 0, []⟩ (live.map fun h => (h, env.probe h))
      ⟨true,
       { final with results_queue := (save_results range ts final.results_queue).1 },
       some (save_results range ts final.results_queue).2⟩

/-- The exit code chosen by `main` (lines 274-284):
`sys.exit(0 if success else 1)` on the normal path, and `sys.exit(1)`
after saving partial results when a `KeyboardInterrupt` arrived. -/
def main_run (env : Env) (net p : Nat) (range ts : String)
    (interrupted : Bool) : Nat :=
  if interrupted then 1
  else if (run_scan env net p range ts).success then 0 else 1

/-- State of the worker pool during `run_scan`'s dispatch phase:
not-yet-started tasks, tasks currently occupying a pool worker, and the
two lock-guarded counters. -/
structure OrchState where
  pending : Nat
  running : Nat
  active : Int
  completed : Nat
deriving DecidableEq

/-- Initial pool state: every host pending, nothing running, both
counters zero (lines 36-38 and 228-229). -/
def OrchState.init (H : Nat) : OrchState :=
  ⟨H, 0, 0, 0⟩

/-- One scheduling step of `ThreadPoolExecutor(max_workers=limit)`
running `scan_host` tasks: a pending task may start only while fewer
than `limit` workers are busy (its first action under the lock is
`active_scans += 1`), and a running task may finish (its `finally`
block decrements the active counter and increments the completed
counter under the lock). -/
inductive PoolStep (limit : Nat) : OrchState → OrchState → Prop
  | spawn (p r : Nat) (a : Int) (k : Nat) (hp : 0 < p) (hr : r < limit) :
      PoolStep limit ⟨p, r, a, k⟩ ⟨p - 1, r + 1, a + 1, k⟩
  | finish (p r : Nat) (a : Int) (k : Nat) (hr : 0 < r) :
      PoolStep limit ⟨p, r, a, k⟩ ⟨p, r - 1, a - 1, k + 1⟩

/-- States the dispatch phase can reach from the initial state with `H`
hosts and pool size `limit`. -/
def Reachable (limit H : Nat) (s : OrchState) : Prop :=
  Relation.ReflTransGen (PoolStep limit) (OrchState.init H) s

/-- A run environment in which every probe reports exit code 0 but no
"open" indication. -/
def env_no_open : Env :=
  ⟨true, SweepOutcome.ok "Nmap scan report for 10.0.0.1\nHost is up.",
   fun _ => ProbeOutcome.success 0 "All 65535 scanned ports on 10.0.0.1 are closed"⟩

/-- A run environment whose discovery sweep times out. -/
def env_timeout : Env :=
  ⟨true, SweepOutcome.timedOut, fun _ => ProbeOutcome.timeout⟩

/-- A run environment in which nmap is not invocable. -/
def env_missing : Env :=
  ⟨false, SweepOutcome.timedOut, fun _ => ProbeOutcome.timeout⟩

/-- One parsing-loop iteration contributes exactly what `line_ip` says. -/
theorem sweep_step_eq (acc : List String) (l : String) :
    sweep_step acc l = acc ++ (line_ip l).toList := by
  unfold sweep_step line_ip
  by_cases hc : containsSubstr l "Nmap scan report for" = true
  · simp only [hc, if_true]
    cases search_ip l.data <;> simp
  · simp only [hc, if_false]
    simp [hc]

/-- The appending loop is the `filterMap` of the per-line contribution. -/
theorem foldl_sweep_step (lines : List String) (acc : List String) :
    lines.foldl sweep_step acc = acc ++ lines.filterMap line_ip := by
  induction lines generalizing acc with
  | nil => simp
  | cons l ls ih =>
    rw [List.foldl_cons, sweep_step_eq, ih]
    cases hm : line_ip l <;> simp [List.filterMap_cons, hm]

/-- The counter effect of one task is the same for every probe outcome:
completed goes up by one and active returns to its prior value. -/
theorem scan_host_counters (st : ScanState) (host : String) (o : ProbeOutcome) :
    (scan_host st host o).1.completed = st.completed + 1 ∧
    (scan_host st host o).1.active = st.active := by
  cases o with
  | success code out =>
    unfold scan_host process_scan_result
    dsimp only
    split <;> exact ⟨rfl, Int.add_sub_cancel st.active 1⟩
  | timeout => exact ⟨rfl, Int.add_sub_cancel st.active 1⟩
  | error m => exact ⟨rfl, Int.add_sub_cancel st.active 1⟩

/-- C2: a ScanResult is forwarded to the results queue exactly when the
probe returned with exit status 0 and its lowercased output contains
"open"; a returned probe without that indication changes nothing in the
queue, as do timeouts and other errors, and in every case the completed
counter still goes up by one. -/
theorem scan_host_forwarding (st : ScanState) (host out m : String)
    (code : Int) (o : ProbeOutcome) :
    (scan_host st host (ProbeOutcome.success code out)).1.results_queue =
      (if code == 0 && containsSubstr (str_lower out) "open" then
        st.results_queue ++ [(host, out)]
      else st.results_queue) ∧
    (scan_host st host ProbeOutcome.timeout).1.results_queue = st.results_queue ∧
    (scan_host st host (ProbeOutcome.error m)).1.results_queue = st.results_queue ∧
    (scan_host st host o).1.completed = st.completed + 1 := by
  refine ⟨?_, rfl, rfl, (scan_host_counters st host o).1⟩
  unfold scan_host process_scan_result
  dsimp only
  split <;> rfl

/-- Fold form of the completed-counter bookkeeping over a task list. -/
theorem run_tasks_completed_aux (tasks : List (String × ProbeOutcome))
    (st : ScanState) :
    (run_tasks st tasks).completed = st.completed + tasks.length := by
  induction tasks generalizing st with
  | nil => simp [run_tasks]
  | cons t ts ih =>
    unfold run_tasks
    rw [List.foldl_cons]
    have h := ih ((scan_host st t.1 t.2).1)
    unfold run_tasks at h
    rw [h, (scan_host_counters st t.1 t.2).1]
    simp [List.length_cons]
    omega

/-- C3: after orchestration folds over every dispatched task, the
completed counter equals the number of dispatched tasks exactly, because
the cleanup step of each single task unconditionally increments completed
and undoes its increment of active, whatever the probe outcome was. -/
theorem run_tasks_completed (st : ScanState) (tasks : List (String × ProbeOutcome))
    (host : String) (o : ProbeOutcome) :
    (run_tasks st tasks).completed = st.completed + tasks.length ∧
    (scan_host st host o).1.completed = st.completed + 1 ∧
    (scan_host st host o).1.active = st.active := by
  obtain ⟨h1, h2⟩ := scan_host_counters st host o
  exact ⟨run_tasks_completed_aux tasks st, h1, h2⟩

/-- C5 (counterexample): on a probe timeout the worker does not sleep
for the inter-probe delay — `time.sleep` sits inside the `try` block
and is skipped when `subprocess.run` raises. -/
theorem scan_host_timeout_no_sleep_cex :
    (scan_host ⟨0, 0, []⟩ "10.0.0.7" ProbeOutcome.timeout).2 = false := rfl

/-- C5 (amended): the worker sleeps for the inter-probe delay exactly
when the probe invocation returned without raising (any exit status);
on a timeout or any other invocation error the sleep is skipped. -/
theorem scan_host_sleep_on_return_only (st : ScanState) (host out m : String)
    (code : Int) :
    (scan_host st host (ProbeOutcome.success code out)).2 = true ∧
    (scan_host st host ProbeOutcome.timeout).2 = false ∧
    (scan_host st host (ProbeOutcome.error m)).2 = false := by
  refine ⟨?_, rfl, rfl⟩
  unfold scan_host process_scan_result
  dsimp only
  split <;> rfl

/-- C7 (counterexample): an address reported on two sweep-output lines
appears twice in the returned host list — the loop appends without any
duplicate check, so the list is not duplicate-free. -/
theorem parse_live_hosts_duplicates_cex :
    parse_live_hosts
        "Nmap scan report for 10.0.0.5\nNmap scan report for 10.0.0.5"
      = ["10.0.0.5", "10.0.0.5"] ∧
    ¬ (parse_live_hosts
        "Nmap scan report for 10.0.0.5\nNmap scan report for 10.0.0.5").Nodup := by
  constructor
  · rfl
  · decide

/-- C7 (amended): the discovery stage collects the address tokens of the
"host found" lines into an ordered sequence with exactly one entry per
matching line, in line order; duplicate addresses are preserved, not
removed. -/
theorem parse_live_hosts_ordered (stdout : String) :
    parse_live_hosts stdout = (split_lines stdout).filterMap line_ip ∧
    (parse_live_hosts stdout).length
      = ((split_lines stdout).filterMap line_ip).length := by
  have h := foldl_sweep_step (split_lines stdout) []
  unfold parse_live_hosts
  rw [h]
  simp

/-- C8: draining the result store a second time yields the empty set
(the store is emptied by the first drain, so each inserted ScanResult is
delivered at most once), and saving with an empty drained set writes no
files and reports the non-fatal "No results to save" condition
(modelled by `none`) instead of raising. -/
theorem save_results_drain (range ts : String) (q : List (String × String)) :
    (drain_queue (drain_queue q).2).1 = [] ∧
    (save_results range ts q).1 = [] ∧
    (save_results range ts (save_results range ts q).1).2 = none ∧
    (save_results range ts ([] : List (String × String))).2 = none := by
  have h1 : (save_results range ts q).1 = [] := by
    unfold save_results drain_queue
    dsimp only
    split <;> rfl
  refine ⟨rfl, h1, ?_, rfl⟩
  rw [h1]
  rfl

/-- C1 (counterexample): with nmap installed, one live host found, and a
probe that returns exit status 0 with no "open" indication, the run
produces zero ScanResults yet `run_scan` returns True and the process
exits with code 0 — refuting "exit 0 only if at least one ScanResult was
produced" and "exit 1 when no results were produced". -/
theorem exit_zero_without_results_cex :
    main_run env_no_open 167772160 24 "10.0.0.0/24" "2026-01-01 00:00:00" false = 0 ∧
    (run_scan env_no_open 167772160 24 "10.0.0.0/24"
      "2026-01-01 00:00:00").final.results_queue = [] ∧
    (run_scan env_no_open 167772160 24 "10.0.0.0/24"
      "2026-01-01 00:00:00").saved = some none :=
  ⟨rfl, rfl, rfl⟩

/-- C1 (amended): absent interruption the process exits 0 if and only if
the scan ran — nmap was invocable and the discovery stage yielded at
least one live host; whether any ScanResult was produced does not affect
the exit code.  Interruption exits 1 (after the partial save), and no
live hosts or a missing nmap exit 1. -/
theorem main_exit_code (env : Env) (net p : Nat) (range ts : String)
    (intr : Bool) :
    main_run env net p range ts intr =
      (if intr then 1
       else if env.nmap_installed && !(ping_sweep env net p).isEmpty then 0
       else 1) ∧
    (run_scan env net p range ts).success
      = (env.nmap_installed && !(ping_sweep env net p).isEmpty) := by
  have hs : (run_scan env net p range ts).success
      = (env.nmap_installed && !(ping_sweep env net p).isEmpty) := by
    unfold run_scan
    cases hn : env.nmap_installed with
    | false => simp
    | true =>
      dsimp only
      cases hl : (ping_sweep env net p).isEmpty with
      | true => simp [hl]
      | false => simp [hl]
  constructor
  · unfold main_run
    rw [hs]
  · exact hs

/-- C10: when the external probing tool is not invocable, `run_scan`
aborts immediately — no discovery, no probing, no file writing (`saved`
is `none`, so `save_results` was never reached), counters untouched —
and the process exits with code 1. -/
theorem nmap_missing_aborts (env : Env) (net p : Nat) (range ts : String)
    (hn : env.nmap_installed = false) :
    run_scan env net p range ts = ⟨false, ⟨0, 0, []⟩, none⟩ ∧
    main_run env net p range ts false = 1 := by
  have h : run_scan env net p range ts = ⟨false, ⟨0, 0, []⟩, none⟩ := by
    unfold run_scan
    simp [hn]
  refine ⟨h, ?_⟩
  unfold main_run
  rw [h]
  rfl

/-- Witness for C10 at a concrete environment with nmap missing. -/
theorem nmap_missing_aborts_witness :
    run_scan env_missing 0 24 "0.0.0.0/24" "2026-01-01 00:00:00"
      = ⟨false, ⟨0, 0, []⟩, none⟩ ∧
    main_run env_missing 0 24 "0.0.0.0/24" "2026-01-01 00:00:00" false = 1 :=
  nmap_missing_aborts env_missing 0 24 "0.0.0.0/24" "2026-01-01 00:00:00" rfl

/-- Every reachable pool state keeps the active counter equal to the
number of busy workers and the busy workers within the pool bound. -/
theorem pool_invariant {limit H : Nat} {s : OrchState}
    (h : Reachable limit H s) :
    s.active = (s.running : Int) ∧ s.running ≤ limit := by
  unfold Reachable at h
  induction h with
  | refl => exact ⟨rfl, Nat.zero_le _⟩
  | tail hsteps hstep ih =>
    obtain ⟨ih1, ih2⟩ := ih
    cases hstep with
    | spawn p r a k hp hr =>
      dsimp only at ih1 ih2 ⊢
      constructor
      · omega
      · omega
    | finish p r a k hr =>
      dsimp only at ih1 ih2 ⊢
      constructor
      · omega
      · omega

/-- C4: with concurrency limit L and H hosts the pool size is
`min L H`, and at every reachable state of the dispatch phase the
active-scan counter satisfies `0 ≤ active ≤ min L H`, no more than
`min L H` tasks occupy workers (run probes) concurrently, and every
further step leaves the completed counter non-decreasing. -/
theorem concurrency_bounded (L H : Nat) (s : OrchState)
    (h : Reachable (min L H) H s) :
    0 ≤ s.active ∧ s.active ≤ ((min L H : Nat) : Int) ∧
    s.running ≤ min L H ∧
    ∀ s', PoolStep (min L H) s s' → s.completed ≤ s'.completed := by
  obtain ⟨h1, h2⟩ := pool_invariant h
  refine ⟨by omega, by omega, h2, ?_⟩
  intro s' hs'
  cases hs' with
  | spawn p r a k hp hr => exact Nat.le_refl _
  | finish p r a k hr => exact Nat.le_succ _

/-- Witness for C4: the state after one spawn step from three pending
hosts under configured limit 2 is reachable and satisfies the bounds. -/
theorem concurrency_bounded_witness :
    0 ≤ (OrchState.mk 2 1 1 0).active ∧
    (OrchState.mk 2 1 1 0).active ≤ ((min 2 3 : Nat) : Int) ∧
    (OrchState.mk 2 1 1 0).running ≤ min 2 3 :=
  ⟨(concurrency_bounded 2 3 ⟨2, 1, 1, 0⟩
      (Relation.ReflTransGen.single
        (PoolStep.spawn 3 0 0 0 (by decide) (by decide)))).1,
   (concurrency_bounded 2 3 ⟨2, 1, 1, 0⟩
      (Relation.ReflTransGen.single
        (PoolStep.spawn 3 0 0 0 (by decide) (by decide)))).2.1,
   (concurrency_bounded 2 3 ⟨2, 1, 1, 0⟩
      (Relation.ReflTransGen.single
        (PoolStep.spawn 3 0 0 0 (by decide) (by decide)))).2.2.1⟩

/-- Filtering out the first and last of `m + 2` consecutive addresses
leaves exactly the `m` interior addresses, in order. -/
theorem range_filter_interior (net m : Nat) :
    ((List.range (m + 1 + 1)).map (fun i => net + i)).filter
      (fun a => a != net && a != net + (m + 1 + 1) - 1)
    = (List.range m).map (fun i => net + 1 + i) := by
  have e1 : List.range (m + 1 + 1) = 0 :: (List.range (m + 1)).map Nat.succ :=
    List.range_succ_eq_map (m + 1)
  have e2 : List.range (m + 1) = List.range m ++ [m] := List.range_succ m
  rw [e1, e2]
  simp only [List.map_cons, List.map_append, List.map_map, List.filter_cons,
    List.filter_append, List.map_nil, List.filter_nil]
  have hhead : ((net + 0 != net) && (net + 0 != net + (m + 1 + 1) - 1)) = false := by
    simp
  have hlast : ((net + Nat.succ m != net)
      && (net + Nat.succ m != net + (m + 1 + 1) - 1)) = false := by
    have hb : net + (m + 1 + 1) - 1 = net + Nat.succ m := by omega
    rw [hb]
    simp
  rw [hhead, hlast]
  have hmid : ∀ a ∈ (List.range m).map ((fun i => net + i) ∘ Nat.succ),
      ((a != net) && (a != net + (m + 1 + 1) - 1)) = true := by
    intro a ha
    obtain ⟨i, hi, rfl⟩ := List.mem_map.mp ha
    have hi' : i < m := List.mem_range.mp hi
    simp only [Function.comp_apply, Bool.and_eq_true, bne_iff_ne, ne_eq]
    omega
  rw [List.filter_eq_self.mpr hmid]
  simp only [Bool.false_eq_true, if_false, List.append_nil]
  exact List.map_congr_left (fun i hi => by simp only [Function.comp_apply]; omega)

/-- The usable-host enumeration is never empty, whatever the prefix. -/
theorem hosts_range_ne_nil (net p : Nat) : hosts_range net p ≠ [] := by
  unfold hosts_range
  split
  · intro h
    have h0 := List.range_eq_nil.mp (List.map_eq_nil_iff.mp h)
    have h1 : 0 < 2 ^ (32 - p) := Nat.pos_pow_of_pos _ (by norm_num)
    omega
  · intro h
    have h0 := List.range_eq_nil.mp (List.map_eq_nil_iff.mp h)
    have h2 : (2:Nat) ^ 2 ≤ 2 ^ (32 - p) :=
      Nat.pow_le_pow_right (by norm_num) (by omega)
    have h3 : (2:Nat) ^ 2 = 4 := by norm_num
    omega

/-- C6 (counterexample): for the /31 range 192.168.1.0/31 the degraded
fallback returns both addresses of the range — the network and broadcast
addresses themselves — while the spec's "every address excluding network
and broadcast" set is empty there, so the claimed exclusion (and the
non-emptiness the claim derives from it) does not describe the code. -/
theorem fallback_slash31_cex :
    ping_sweep env_timeout 3232235776 31 = ["192.168.1.0", "192.168.1.1"] ∧
    (spec_excluded_hosts 3232235776 31).map ip_to_string = [] :=
  ⟨rfl, rfl⟩

/-- C6 (amended): on a sweep timeout or invocation failure `ping_sweep`
returns the usable-host enumeration of the range as strings: for prefix
lengths up to /30 that is exactly every address of the range excluding
the network and broadcast addresses, while for /31 and /32 it is every
address of the range with no exclusion; in every case the candidate set
handed to the orchestrator is non-empty. -/
theorem ping_sweep_fallback (env : Env) (net p : Nat)
    (hsw : env.sweep = SweepOutcome.timedOut
      ∨ ∃ m, env.sweep = SweepOutcome.failed m) :
    ping_sweep env net p = (hosts_range net p).map ip_to_string ∧
    ping_sweep env net p ≠ [] ∧
    hosts_range net 31 = [net, net + 1] ∧
    hosts_range net 32 = [net] ∧
    hosts_range net (min p 30) = spec_excluded_hosts net (min p 30) := by
  have hmain : ping_sweep env net p = (hosts_range net p).map ip_to_string := by
    rcases hsw with h | ⟨m, h⟩ <;> simp [ping_sweep, h]
  refine ⟨hmain, ?_, ?_, ?_, ?_⟩
  · rw [hmain]
    intro h
    exact hosts_range_ne_nil net p (List.map_eq_nil_iff.mp h)
  · unfold hosts_range
    norm_num
    simp [List.range_succ, List.range_zero]
  · unfold hosts_range
    norm_num
    simp [List.range_succ, List.range_zero]
  · generalize hq' : min p 30 = q
    have hq : q ≤ 30 := by
      rw [← hq']
      exact min_le_right p 30
    have hpow : 4 ≤ 2 ^ (32 - q) := by
      have h2 : (2:Nat) ^ 2 ≤ 2 ^ (32 - q) :=
        Nat.pow_le_pow_right (by norm_num) (by omega)
      simpa using h2
    obtain ⟨m, hm⟩ : ∃ m, 2 ^ (32 - q) = m + 1 + 1 := ⟨2 ^ (32 - q) - 2, by omega⟩
    unfold hosts_range spec_excluded_hosts broadcast
    rw [if_neg (by omega : ¬ 31 ≤ q), hm]
    have hm2 : m + 1 + 1 - 2 = m := by omega
    rw [hm2]
    exact (range_filter_interior net m).symm

/-- Witness for C6 at a concrete timed-out environment and a /30 range. -/
theorem ping_sweep_fallback_witness :
    ping_sweep env_timeout 0 30 = (hosts_range 0 30).map ip_to_string ∧
    ping_sweep env_timeout 0 30 ≠ [] ∧
    hosts_range 0 31 = [0, 0 + 1] ∧
    hosts_range 0 32 = [0] ∧
    hosts_range 0 (min 30 30) = spec_excluded_hosts 0 (min 30 30) :=
  ping_sweep_fallback env_timeout 0 30 (Or.inl rfl)

/-- Every result's chunk block occurs contiguously in the xml file. -/
theorem xml_block_infix (a b : List (String × String)) (r : String × String) :
    xml_host_block r <:+: xml_file (a ++ r :: b) := by
  refine ⟨xml_header ++ a.flatMap xml_host_block,
    b.flatMap xml_host_block ++ ["</nmaprun>\n"], ?_⟩
  unfold xml_file
  simp

/-- Every result's chunk block occurs contiguously in the .nmap file. -/
theorem nmap_block_infix (range ts : String) (a b : List (String × String))
    (r : String × String) :
    nmap_host_block r <:+: nmap_file range ts (a ++ r :: b) := by
  refine ⟨["# Network scan results for " ++ range ++ "\n",
    "# Generated: " ++ ts ++ "\n\n"] ++ a.flatMap nmap_host_block,
    b.flatMap nmap_host_block, ?_⟩
  unfold nmap_file
  simp

/-- C9 (counterexample): a probe whose output is the single port line
"53/tcp open|filtered domain" is recorded as a ScanResult (exit 0 and
"open" occurs in the lowercased output) — but, contrary to the claim, it
does produce an entry in the grep-friendly .gnmap file, because the line
contains "/tcp" and the lowercase substring "open" and starts with a
port token. -/
theorem open_filtered_gnmap_cex :
    (scan_host ⟨0, 0, []⟩ "10.0.0.9"
        (ProbeOutcome.success 0 "53/tcp open|filtered domain")).1.results_queue
      = [("10.0.0.9", "53/tcp open|filtered domain")] ∧
    gnmap_ports "53/tcp open|filtered domain" = ["53/tcp"] ∧
    gnmap_file [("10.0.0.9", "53/tcp open|filtered domain")] ≠ [] := by
  refine ⟨rfl, rfl, ?_⟩
  decide

/-- C9 (amended): a ScanResult is recorded exactly when the probe exits
with status 0 and its output contains "open" case-insensitively anywhere
(state fields such as "open|filtered" and service text included); every
recorded result contributes its block to the structured-markup and log
files; its entry in the grep-friendly file is present exactly when some
output line contains "/tcp" together with the lowercase substring "open"
and starts with a numeric port token — so "open|filtered" port lines do
produce .gnmap entries, while matches that are only case-variant (for
example "OpenVPN" service text) produce none. -/
theorem recorded_results_in_outputs (st : ScanState) (host out : String)
    (code : Int) (a b : List (String × String)) (r : String × String)
    (range ts : String) :
    (scan_host st host (ProbeOutcome.success code out)).1.results_queue =
      (if code == 0 && containsSubstr (str_lower out) "open" then
        st.results_queue ++ [(host, out)]
      else st.results_queue) ∧
    xml_host_block r <:+: xml_file (a ++ r :: b) ∧
    nmap_host_block r <:+: nmap_file range ts (a ++ r :: b) ∧
    (gnmap_host_block r = [] ↔ gnmap_ports r.2 = []) ∧
    gnmap_ports "53/tcp open|filtered domain" = ["53/tcp"] ∧
    containsSubstr (str_lower "8080/tcp closed OpenVPN") "open" = true ∧
    gnmap_ports "8080/tcp closed OpenVPN" = [] := by
  refine ⟨?_, xml_block_infix a b r, nmap_block_infix range ts a b r, ?_, rfl, rfl, rfl⟩
  · unfold scan_host process_scan_result
    dsimp only
    split <;> rfl
  · unfold gnmap_host_block
    by_cases h : gnmap_ports r.2 = []
    · simp [h]
    · simp [h]

end NScan
